import Mathlib

/-!
Verification of the zap settlement pipeline of mistic0xb/pekka.

The development shallowly embeds the Go sources:
* `internal/db/database.go` — the ledger (SQLite table `zapped_events`,
  `event_id TEXT PRIMARY KEY`), as a list of entries; the duplicate-key
  rejection of the insert follows the declared primary key constraint.
* `internal/bunker/reconnecting.go` — the reconnect-once-on-session-error
  call wrapper of the signing session.
* `internal/zap/zapper.go` — lightning address conversion, invoice bounds
  validation, and the per-attempt zap pipeline.
* `internal/nwc/client.go` — the publish retry loop of `sendRequest`.
* `internal/bot/bot.go` — `processEvent`, `tryZap`, `tryReact`.

External network effects (relay publishes, HTTP fetches, wallet responses,
signer responses) are modelled as oracle parameters giving the outcome of
each call; machine integers of Go are modelled as `Int`.
-/

namespace Pekka

/-! ## Ledger (internal/db/database.go) -/

/-- A row of the `zapped_events` table (`ZappedEvent` in `database.go`). -/
structure ZappedEvent where
  eventId : String
  authorPubkey : String
  zappedAt : Int
  amount : Int
  eventCreatedAt : Int
  deriving Repr, DecidableEq

/-- The `zapped_events` table, as the list of its rows. -/
abbrev Ledger := List ZappedEvent

/-- `DB.IsZapped`: `SELECT EXISTS(SELECT 1 FROM zapped_events WHERE event_id = ?)`. -/
def isZapped (l : Ledger) (eventID : String) : Bool :=
  l.any (fun e => e.eventId == eventID)

/-- Error class of a failed ledger insert. -/
inductive DBErr
  | conflict
  deriving Repr, DecidableEq

/-- `DB.MarkZapped`: `INSERT INTO zapped_events ... VALUES (?, ?, ?, ?, ?)`.
`event_id` is declared `TEXT PRIMARY KEY` in `initSchema`, so the insert of a
row whose `event_id` is already present fails (duplicate primary key) and the
table is unchanged; otherwise the row is inserted.  `now` stands for
`time.Now().Unix()` at the call. -/
def markZapped (l : Ledger) (eventID authorPubkey : String) (amount : Int)
    (now eventCreatedAt : Int) : Except DBErr Ledger :=
  if isZapped l eventID then .error .conflict
  else .ok (⟨eventID, authorPubkey, now, amount, eventCreatedAt⟩ :: l)

/-- `DB.GetTodayTotal`: `SELECT SUM(amount) FROM zapped_events WHERE zapped_at >= ?`
with `?` the start of the current UTC day. -/
def getTodayTotal (l : Ledger) (dayStart : Int) : Int :=
  ((l.filter (fun e => decide (dayStart ≤ e.zappedAt))).map (fun e => e.amount)).sum

/-- `DB.GetTodayTotalForAuthor`:
`SELECT SUM(amount) FROM zapped_events WHERE author_pubkey = ? AND zapped_at >= ?`. -/
def getTodayTotalForAuthor (l : Ledger) (pubkey : String) (dayStart : Int) : Int :=
  ((l.filter (fun e => e.authorPubkey == pubkey && decide (dayStart ≤ e.zappedAt))).map
    (fun e => e.amount)).sum

/-- Number of rows with the given `event_id`. -/
def countEntries (l : Ledger) (eventID : String) : Nat :=
  (l.filter (fun e => e.eventId == eventID)).length

/-! ## Reconnecting signing session (internal/bunker/reconnecting.go) -/

/-- Errors surfaced by a signing-session call; `canceled` and
`deadlineExceeded` stand for errors matching `context.Canceled` resp.
`context.DeadlineExceeded` under `errors.Is`. -/
inductive BunkerErr
  | canceled
  | deadlineExceeded
  | protocol (msg : String)
  deriving Repr, DecidableEq

/-- `isSessionError`: `errors.Is(err, context.Canceled) || errors.Is(err, context.DeadlineExceeded)`. -/
def isSessionError : BunkerErr → Bool
  | .canceled => true
  | .deadlineExceeded => true
  | .protocol _ => false

/-- Outcome of one wrapped session call: the value (or error) returned to the
caller, the number of `reconnect` attempts made, and the number of calls
issued to the underlying client. -/
structure SessionCallResult (α : Type) where
  result : Except BunkerErr α
  reconnects : Nat
  calls : Nat
  deriving Repr

/-- The shared shape of `ReconnectingClient.SignEvent` / `GetPublicKey` /
`DecryptNIP44` / `DecryptNIP04`: issue the call; on a session-class error,
reconnect once — if the reconnect fails return the original error, otherwise
issue the call once more and return its outcome.  `first` and `second` are
the outcomes of the two possible underlying client calls, `reconnectOk`
whether `reconnect` (i.e. `NewClient`) succeeds. -/
def sessionCall (first : Except BunkerErr α) (reconnectOk : Bool)
    (second : Except BunkerErr α) : SessionCallResult α :=
  match first with
  | .ok v => ⟨.ok v, 0, 1⟩
  | .error e =>
    if isSessionError e then
      if reconnectOk then ⟨second, 1, 2⟩
      else ⟨.error e, 1, 1⟩
    else ⟨.error e, 0, 1⟩

/-- `ReconnectingClient.SignEvent`, as an instance of the shared call shape
(the signed event is the `Unit` result). -/
def signEvent (first : Except BunkerErr Unit) (reconnectOk : Bool)
    (second : Except BunkerErr Unit) : SessionCallResult Unit :=
  sessionCall first reconnectOk second

/-! ## Zapper (internal/zap/zapper.go) -/

/-- The fields of `LNURLPayMetadata` used by the bounds check and the
invoice callback. -/
structure LNURLPayMetadata where
  callback : String
  minSendable : Int
  maxSendable : Int
  tag : String
  deriving Repr, DecidableEq

/-- The error text built in `requestInvoice`:
`fmt.Errorf("amount %d out of bounds (%d-%d)", amountMillisats, metadata.MinSendable, metadata.MaxSendable)`. -/
def amountBoundsError (amountMillisats minSendable maxSendable : Int) : String :=
  "amount " ++ toString amountMillisats ++ " out of bounds (" ++
    toString minSendable ++ "-" ++ toString maxSendable ++ ")"

/-- The bounds test of `requestInvoice`:
`if amountMillisats < metadata.MinSendable || amountMillisats > metadata.MaxSendable`. -/
def checkZapAmount (amountMillisats minSendable maxSendable : Int) : Except String Unit :=
  if amountMillisats < minSendable || amountMillisats > maxSendable then
    .error (amountBoundsError amountMillisats minSendable maxSendable)
  else .ok ()

/-- `Zapper.requestInvoice`: fetch the LNURL metadata (`fetchMeta` is the
outcome of `fetchLNURLMetadata`), compute `amountMillisats := amountSats*1000`,
validate it against `minSendable`/`maxSendable`, then request the invoice
from the callback (`fetchInv` is the outcome of `fetchInvoice`). -/
def requestInvoice (fetchMeta : Except String LNURLPayMetadata) (amountSats : Int)
    (fetchInv : Except String String) : Except String String :=
  match fetchMeta with
  | .error e => .error e
  | .ok metadata =>
    match checkZapAmount (amountSats * 1000) metadata.minSendable metadata.maxSendable with
    | .error e => .error e
    | .ok _ => fetchInv

/-- `strings.Split` for a one-character separator: the maximal runs of the
input between occurrences of `c` (a list with one more element than the
number of occurrences of `c`). -/
def splitOnChar (c : Char) : List Char → List (List Char)
  | [] => [[]]
  | x :: xs =>
    if x = c then [] :: splitOnChar c xs
    else
      match splitOnChar c xs with
      | [] => [[x]]
      | r :: rs => (x :: r) :: rs

/-- `Zapper.lightningAddressToLNURL`: split the address on `"@"`; unless that
yields exactly two parts return `""`; otherwise return
`https://<domain>/.well-known/lnurlp/<user>`. -/
def lightningAddressToLNURL (address : String) : String :=
  match splitOnChar '@' address.data with
  | [user, domain] =>
    String.mk ("https://".data ++ domain ++ "/.well-known/lnurlp/".data ++ user)
  | _ => ""

/-! ## Per-attempt zap pipeline (`Zapper.ZapNote`) -/

/-- The externally visible steps of one `ZapNote` run, in order: profile
lookup, zap-request creation/signing, invoice negotiation, and the
`pay_invoice` wallet RPC. -/
inductive ZapAction
  | getLightningAddress
  | createZapRequest
  | requestInvoice
  | payInvoice
  deriving Repr, DecidableEq

/-- Outcomes of the four external calls of one `ZapNote` run. -/
structure ZapNoteOracle where
  lightningAddr : Except String String
  signOk : Except String Unit
  invoice : Except String String
  payOk : Except String Unit

/-- `Zapper.ZapNote`: get the author's lightning address, create and sign the
kind-9734 zap request, request the invoice, pay it via the wallet RPC;
each step's failure aborts the run.  Returns the steps executed and whether
the run succeeded. -/
def zapNote (o : ZapNoteOracle) : List ZapAction × Bool :=
  match o.lightningAddr with
  | .error _ => ([.getLightningAddress], false)
  | .ok _ =>
    match o.signOk with
    | .error _ => ([.getLightningAddress, .createZapRequest], false)
    | .ok _ =>
      match o.invoice with
      | .error _ => ([.getLightningAddress, .createZapRequest, .requestInvoice], false)
      | .ok _ =>
        match o.payOk with
        | .error _ =>
          ([.getLightningAddress, .createZapRequest, .requestInvoice, .payInvoice], false)
        | .ok _ =>
          ([.getLightningAddress, .createZapRequest, .requestInvoice, .payInvoice], true)

/-! ## Wallet RPC publish retry loop (internal/nwc/client.go, `sendRequest`) -/

/-- A failed `relay.Publish`; `connClosed` records whether
`strings.Contains(err.Error(), "connection closed")`. -/
structure PubErr where
  connClosed : Bool
  deriving Repr, DecidableEq

/-- One observable step of the publish retry loop. -/
inductive SAction
  | publish (outcome : Option PubErr)
  | reconnect (ok : Bool)
  deriving Repr, DecidableEq

/-- How the publish phase of `sendRequest` ends: publish accepted, aborted
with the publish error, or a `Publish` call on a nil relay handle (the
handle `RelayConnect` left nil after a failed reconnect). -/
inductive LoopResult
  | ok
  | err (e : PubErr)
  | nilDeref
  deriving Repr, DecidableEq

/-- The `for range 3` publish loop of `sendRequest`.  `pub i` is the outcome
of the `i`-th `relay.Publish` on a live relay (`none` = accepted); `rc i`
whether the `i`-th `nostr.RelayConnect` succeeds (its error is discarded:
`c.relay, _ = nostr.RelayConnect(...)`, so on failure the relay handle
becomes nil).  `relayUp` is whether `c.relay` is non-nil; `lastErr` the
value of `err` from the previous iteration. -/
def publishLoop (pub : Nat → Option PubErr) (rc : Nat → Bool) :
    Nat → Bool → Nat → Nat → Option PubErr → List SAction × LoopResult
  | 0, _, _, _, lastErr =>
    ([], match lastErr with
         | some e => .err e
         | none => .ok)
  | fuel + 1, relayUp, pi, ri, _ =>
    if relayUp then
      match pub pi with
      | none => ([.publish none], .ok)
      | some e =>
        if e.connClosed then
          let rok := rc ri
          let rest := publishLoop pub rc fuel rok (pi + 1) (ri + 1) (some e)
          (.publish (some e) :: .reconnect rok :: rest.1, rest.2)
        else ([.publish (some e)], .err e)
    else ([], .nilDeref)

/-- The publish phase of `sendRequest` (entered only with a non-nil relay:
the `c.relay == nil` guard precedes it). -/
def sendRequestPublish (pub : Nat → Option PubErr) (rc : Nat → Bool) :
    List SAction × LoopResult :=
  publishLoop pub rc 3 true 0 0 none

/-- Number of `Publish` calls in a trace. -/
def countPublish (tr : List SAction) : Nat :=
  tr.countP (fun a => match a with | .publish _ => true | _ => false)

/-- Well-formedness of a publish-loop trace: it is a run of publishes in
which every publish other than the last is a `connection closed` failure
immediately followed by a reconnect attempt — i.e. the loop retries only on
`connection closed` and reconnects freshly before each retry. -/
def retryShape : List SAction → Bool
  | [] => true
  | [.publish _] => true
  | .publish (some e) :: .reconnect _ :: rest => e.connClosed && retryShape rest
  | _ => false

/-! ## Orchestrator (internal/bot/bot.go) -/

/-- The configuration fields `processEvent` reads. -/
structure BotConfig where
  zapAmount : Int
  dailyLimit : Int
  perNPubLimit : Int
  reactionEnabled : Bool
  deriving Repr, DecidableEq

/-- The fields of an incoming relay event that `processEvent` reads. -/
structure NostrEvent where
  id : String
  pubKey : String
  kind : Int
  createdAt : Int
  content : String
  deriving Repr, DecidableEq

/-- Result of `tryZap` / `tryReact`: whether the whole attempt sequence
succeeded, how many underlying attempts were issued, and (for `tryZap`) the
pipeline steps they executed. -/
structure TryResult where
  success : Bool
  calls : Nat
  actions : List ZapAction
  deriving Repr, DecidableEq

/-- `Bot.tryZap`: `for attempt := 1; attempt <= 2; attempt++` — call
`ZapNote`; stop on success; after a first failure sleep 2s and retry once;
a second failure gives up.  `zapO i` is the oracle of the `i`-th `ZapNote`
call (attempts are numbered from 1, as in the source). -/
def tryZap (zapO : Nat → ZapNoteOracle) : TryResult :=
  let r1 := zapNote (zapO 1)
  if r1.2 then ⟨true, 1, r1.1⟩
  else
    let r2 := zapNote (zapO 2)
    ⟨r2.2, 2, r1.1 ++ r2.1⟩

/-- `Bot.tryReact`: the same one-retry loop around `reaction.React`;
`reactO i` is whether the `i`-th `React` call succeeds. -/
def tryReact (reactO : Nat → Bool) : TryResult :=
  if reactO 1 then ⟨true, 1, []⟩
  else ⟨reactO 2, 2, []⟩

/-- Everything observable about one `processEvent` run: the ledger after the
run, the `ZapNote` pipeline steps executed, the number of `ZapNote` calls,
the settlement outcome reported (`none` when the run returned before
launching the zap/react tasks), the reaction outcome reported (`none` when
reactions are disabled or the run returned early), and the number of
`React` calls. -/
structure ProcOut where
  ledger : Ledger
  zapActions : List ZapAction
  zapCalls : Nat
  zapReported : Option Bool
  reactReported : Option Bool
  reactCalls : Nat
  deriving Repr, DecidableEq

/-- `Bot.processEvent` (the concurrent variant of `bot.go`): return unless
kind 1; return if `IsZapped`; return if the daily or the per-author budget
would be exceeded (`GetTodayTotal` / `GetTodayTotalForAuthor` against the
configured limits); otherwise run `tryZap` and, if enabled, `tryReact`
(joined before returning), and on zap success insert the ledger row via
`MarkZapped` — an insert failure is logged and leaves the ledger unchanged.
`now` stands for `time.Now().Unix()` at the `MarkZapped` call, `dayStart`
for the start of the current UTC day used by the totals. -/
def processEvent (cfg : BotConfig) (l : Ledger) (ev : NostrEvent)
    (now dayStart : Int) (zapO : Nat → ZapNoteOracle) (reactO : Nat → Bool) : ProcOut :=
  if ev.kind ≠ 1 then ⟨l, [], 0, none, none, 0⟩
  else if isZapped l ev.id then ⟨l, [], 0, none, none, 0⟩
  else if getTodayTotal l dayStart + cfg.zapAmount > cfg.dailyLimit then
    ⟨l, [], 0, none, none, 0⟩
  else if getTodayTotalForAuthor l ev.pubKey dayStart + cfg.zapAmount > cfg.perNPubLimit then
    ⟨l, [], 0, none, none, 0⟩
  else
    let zr := tryZap zapO
    let rr := if cfg.reactionEnabled then tryReact reactO else ⟨false, 0, []⟩
    let l' :=
      if zr.success then
        match markZapped l ev.id ev.pubKey cfg.zapAmount now ev.createdAt with
        | .ok l2 => l2
        | .error _ => l
      else l
    ⟨l', zr.actions, zr.calls, some zr.success,
      if cfg.reactionEnabled then some rr.success else none, rr.calls⟩

/-- One delivery of an event to the bot: the event, the wall-clock second of
its processing, and the oracles for its zap and reaction attempts. -/
structure Delivery where
  ev : NostrEvent
  now : Int
  zapO : Nat → ZapNoteOracle
  reactO : Nat → Bool

/-- Accumulated observables of a sequential run of deliveries. -/
structure RunOut where
  ledger : Ledger
  settled : Int
  zapActions : List ZapAction

/-- Sequential processing of a list of deliveries (the claims' "posts
processed one at a time"): each delivery is handled by `processEvent` on
the ledger the previous one left; `settled` accumulates the configured zap
amount for every delivery whose settlement succeeded. -/
def processMany (cfg : BotConfig) (dayStart : Int) :
    Ledger → List Delivery → RunOut
  | l, [] => ⟨l, 0, []⟩
  | l, d :: ds =>
    let out := processEvent cfg l d.ev d.now dayStart d.zapO d.reactO
    let rest := processMany cfg dayStart out.ledger ds
    ⟨rest.ledger,
      (if out.zapReported = some true then cfg.zapAmount else 0) + rest.settled,
      out.zapActions ++ rest.zapActions⟩

/-! ## Duplicate-insert interleavings -/

/-- Payload of one settlement-recording attempt for a fixed event id. -/
structure DupAttempt where
  author : String
  amount : Int
  now : Int
  createdAt : Int
  deriving Repr, DecidableEq

/-- A serialized interleaving of `MarkZapped` attempts for one `eventID`
(the table engine serializes the inserts; the primary key check and the
insert are atomic).  Returns the final table and the number of attempts
that succeeded. -/
def markZappedRun (eventID : String) : Ledger → List DupAttempt → Ledger × Nat
  | l, [] => (l, 0)
  | l, a :: as =>
    match markZapped l eventID a.author a.amount a.now a.createdAt with
    | .ok l2 => let rest := markZappedRun eventID l2 as; (rest.1, rest.2 + 1)
    | .error _ => markZappedRun eventID l as

theorem isZapped_false_countEntries (l : Ledger) (eventID : String)
    (h : isZapped l eventID = false) : countEntries l eventID = 0 := by
  induction l with
  | nil => rfl
  | cons e es ih =>
    simp only [isZapped, List.any_cons, Bool.or_eq_false_iff] at h
    simp only [countEntries, List.filter_cons, h.1, List.length_nil]
    exact ih (by simp [isZapped, h.2])

theorem countEntries_cons_self (e : ZappedEvent) (l : Ledger)
    (h : e.eventId = eventID) :
    countEntries (e :: l) eventID = countEntries l eventID + 1 := by
  simp [countEntries, List.filter_cons, h]

theorem isZapped_cons_self (e : ZappedEvent) (l : Ledger) (h : e.eventId = eventID) :
    isZapped (e :: l) eventID = true := by
  simp [isZapped, h]

theorem markZappedRun_of_zapped (eventID : String) (l : Ledger)
    (as : List DupAttempt) (h : isZapped l eventID = true) :
    markZappedRun eventID l as = (l, 0) := by
  induction as with
  | nil => rfl
  | cons a as ih => simp [markZappedRun, markZapped, h, ih]

/-- C4: the ledger holds at most one entry per `eventId`: inserting an
`eventId` already present fails with the conflict error (and, failing,
changes nothing), and any serialized interleaving of one or more
duplicate-settlement attempts for an absent `eventId` ends with exactly one
successful insert and exactly one entry for that id in the table. -/
theorem markZapped_unique_entry (l : Ledger) (eventID author : String)
    (amount now createdAt : Int) (as : List DupAttempt) :
    (isZapped l eventID = true →
      markZapped l eventID author amount now createdAt = .error .conflict) ∧
    (isZapped l eventID = false → as ≠ [] →
      (markZappedRun eventID l as).2 = 1 ∧
      countEntries (markZappedRun eventID l as).1 eventID = 1) := by
  constructor
  · intro h
    simp [markZapped, h]
  · intro h hne
    match as with
    | [] => exact absurd rfl hne
    | a :: as =>
      have hins : markZapped l eventID a.author a.amount a.now a.createdAt =
          .ok (⟨eventID, a.author, a.now, a.amount, a.createdAt⟩ :: l) := by
        simp [markZapped, h]
      have hz : isZapped (⟨eventID, a.author, a.now, a.amount, a.createdAt⟩ :: l) eventID =
          true := isZapped_cons_self _ _ rfl
      simp only [markZappedRun, hins, markZappedRun_of_zapped _ _ _ hz]
      refine ⟨by simp, ?_⟩
      rw [countEntries_cons_self _ _ rfl, isZapped_false_countEntries l eventID h]

/-- Witness for `markZapped_unique_entry`: a concrete ledger and two racing
duplicate attempts. -/
theorem markZapped_unique_entry_witness :
    markZapped [⟨"evt-1", "auth-1", 5, 3, 1⟩] "evt-1" "auth-2" 4 6 2 = .error .conflict ∧
    (markZappedRun "evt-2" [] [⟨"auth-1", 3, 5, 1⟩, ⟨"auth-1", 3, 6, 1⟩]).2 = 1 ∧
    countEntries (markZappedRun "evt-2" []
      [⟨"auth-1", 3, 5, 1⟩, ⟨"auth-1", 3, 6, 1⟩]).1 "evt-2" = 1 := by
  have h := markZapped_unique_entry [⟨"evt-1", "auth-1", 5, 3, 1⟩] "evt-1" "auth-2" 4 6 2
    [⟨"auth-1", 3, 5, 1⟩, ⟨"auth-1", 3, 6, 1⟩]
  have h2 := markZapped_unique_entry ([] : Ledger) "evt-2" "auth-2" 4 6 2
    [⟨"auth-1", 3, 5, 1⟩, ⟨"auth-1", 3, 6, 1⟩]
  exact ⟨h.1 (by decide), (h2.2 (by decide) (by decide)).1, (h2.2 (by decide) (by decide)).2⟩

/-- C3: on a session-class error (matching `context.Canceled` or
`context.DeadlineExceeded`) a signing-session call reconnects exactly once
and, if the reconnect succeeded, retries the call exactly once and returns
the retry's outcome (so a second failure is surfaced with no further
reconnect); if the reconnect failed, the original error is returned and the
call is not retried; a protocol-class error triggers no reconnect and is
returned directly. -/
theorem signEvent_reconnect_policy (first : Except BunkerErr Unit) (reconnectOk : Bool)
    (second : Except BunkerErr Unit) (e : BunkerErr) (hfirst : first = .error e) :
    (isSessionError e = true →
      (signEvent first reconnectOk second).reconnects = 1 ∧
      (reconnectOk = true →
        (signEvent first reconnectOk second).calls = 2 ∧
        (signEvent first reconnectOk second).result = second) ∧
      (reconnectOk = false →
        (signEvent first reconnectOk second).calls = 1 ∧
        (signEvent first reconnectOk second).result = .error e)) ∧
    (isSessionError e = false →
      (signEvent first reconnectOk second).reconnects = 0 ∧
      (signEvent first reconnectOk second).calls = 1 ∧
      (signEvent first reconnectOk second).result = .error e) := by
  subst hfirst
  cases reconnectOk <;>
    cases e <;>
      simp [signEvent, sessionCall, isSessionError]

/-- Witness for `signEvent_reconnect_policy`: a canceled-context failure with
a successful reconnect whose retried call is rejected by the remote signer,
and a protocol-class rejection that triggers no reconnect. -/
theorem signEvent_reconnect_policy_witness :
    (signEvent (.error .canceled) true (.error (.protocol "rejected"))).reconnects = 1 ∧
    (signEvent (.error .canceled) true (.error (.protocol "rejected"))).calls = 2 ∧
    (signEvent (.error .canceled) true (.error (.protocol "rejected"))).result =
      .error (.protocol "rejected") ∧
    (signEvent (.error (.protocol "denied")) true (.ok ())).reconnects = 0 := by
  have h := signEvent_reconnect_policy (.error .canceled) true
    (.error (.protocol "rejected")) .canceled rfl
  have h2 := signEvent_reconnect_policy (.error (.protocol "denied")) true
    (.ok ()) (.protocol "denied") rfl
  exact ⟨(h.1 rfl).1, ((h.1 rfl).2.1 rfl).1, ((h.1 rfl).2.1 rfl).2, (h2.2 rfl).1⟩

theorem amountBoundsError_names (v a b : Int) :
    (toString v).data <:+: (amountBoundsError v a b).data ∧
    (toString a).data <:+: (amountBoundsError v a b).data ∧
    (toString b).data <:+: (amountBoundsError v a b).data := by
  refine ⟨⟨"amount ".data,
      (" out of bounds (" ++ toString a ++ "-" ++ toString b ++ ")").data, ?_⟩,
    ⟨("amount " ++ toString v ++ " out of bounds (").data,
      ("-" ++ toString b ++ ")").data, ?_⟩,
    ⟨("amount " ++ toString v ++ " out of bounds (" ++ toString a ++ "-").data,
      (")" : String).data, ?_⟩⟩ <;>
    simp [amountBoundsError, String.data_append]

/-- C5: invoice negotiation succeeds only when `amountSats*1000` lies
inclusively within the endpoint's declared `[minSendable, maxSendable]`
millisatoshi bounds; out of bounds it fails with the error message naming
the requested millisatoshi value and both bounds; concretely, with
`minSendable = 1000` and `maxSendable = 100000`, 3 sats (3000 millisats)
passes the bounds check while a request of 500 millisats fails with an
error naming `500` and `1000`. -/
theorem requestInvoice_bounds (fetchMeta : Except String LNURLPayMetadata)
    (m : LNURLPayMetadata) (amountSats : Int) (fetchInv : Except String String)
    (inv : String) :
    (requestInvoice fetchMeta amountSats fetchInv = .ok inv →
      ∃ md, fetchMeta = .ok md ∧
        md.minSendable ≤ amountSats * 1000 ∧ amountSats * 1000 ≤ md.maxSendable) ∧
    ((amountSats * 1000 < m.minSendable ∨ m.maxSendable < amountSats * 1000) →
      requestInvoice (.ok m) amountSats fetchInv =
        .error (amountBoundsError (amountSats * 1000) m.minSendable m.maxSendable) ∧
      (toString (amountSats * 1000)).data <:+:
        (amountBoundsError (amountSats * 1000) m.minSendable m.maxSendable).data ∧
      (toString m.minSendable).data <:+:
        (amountBoundsError (amountSats * 1000) m.minSendable m.maxSendable).data) ∧
    (requestInvoice (.ok ⟨"https://example.com/cb", 1000, 100000, "payRequest"⟩) 3
        (.ok "lnbc1invoice") = .ok "lnbc1invoice") ∧
    (checkZapAmount 500 1000 100000 =
        .error "amount 500 out of bounds (1000-100000)") ∧
    "500".data <:+: "amount 500 out of bounds (1000-100000)".data ∧
    "1000".data <:+: "amount 500 out of bounds (1000-100000)".data := by
  refine ⟨?_, ?_, by rfl, by rfl, by decide, by decide⟩
  · intro h
    match hm : fetchMeta with
    | .error e => exact absurd h (by simp [requestInvoice])
    | .ok md =>
      refine ⟨md, rfl, ?_⟩
      simp only [requestInvoice, checkZapAmount] at h
      by_cases hb : amountSats * 1000 < md.minSendable ∨ md.maxSendable < amountSats * 1000
      · have : (decide (amountSats * 1000 < md.minSendable) ||
            decide (md.maxSendable < amountSats * 1000)) = true := by
          rcases hb with hb | hb <;> simp [hb]
        rw [this] at h
        exact absurd h (by simp)
      · push_neg at hb
        exact ⟨hb.1, hb.2⟩
  · intro hb
    have hcheck : checkZapAmount (amountSats * 1000) m.minSendable m.maxSendable =
        .error (amountBoundsError (amountSats * 1000) m.minSendable m.maxSendable) := by
      have : (decide (amountSats * 1000 < m.minSendable) ||
          decide (m.maxSendable < amountSats * 1000)) = true := by
        rcases hb with hb | hb <;> simp [hb]
      simp [checkZapAmount, this]
    refine ⟨by simp [requestInvoice, hcheck], ?_, ?_⟩
    · exact (amountBoundsError_names (amountSats * 1000) m.minSendable m.maxSendable).1
    · exact (amountBoundsError_names (amountSats * 1000) m.minSendable m.maxSendable).2.1

/-- Witness for `requestInvoice_bounds`: concrete metadata with bounds
`[1000, 100000]`, a successful 3-sat request, and an out-of-bounds request. -/
theorem requestInvoice_bounds_witness :
    (∃ md, (.ok ⟨"https://example.com/cb", 1000, 100000, "payRequest"⟩ :
        Except String LNURLPayMetadata) = .ok md ∧
      md.minSendable ≤ 3 * 1000 ∧ 3 * 1000 ≤ md.maxSendable) ∧
    requestInvoice (.ok ⟨"https://example.com/cb", 1000, 100000, "payRequest"⟩) 200
        (.ok "lnbc1invoice") =
      .error (amountBoundsError (200 * 1000) 1000 100000) := by
  have h1 := (requestInvoice_bounds
    (.ok ⟨"https://example.com/cb", 1000, 100000, "payRequest"⟩)
    ⟨"https://example.com/cb", 1000, 100000, "payRequest"⟩ 3 (.ok "lnbc1invoice")
    "lnbc1invoice").1 (by rfl)
  have h2 := ((requestInvoice_bounds
    (.ok ⟨"https://example.com/cb", 1000, 100000, "payRequest"⟩)
    ⟨"https://example.com/cb", 1000, 100000, "payRequest"⟩ 200 (.ok "lnbc1invoice")
    "lnbc1invoice").2.1 (by right; decide)).1
  exact ⟨h1, h2⟩

theorem splitOnChar_ne_nil (c : Char) (l : List Char) : splitOnChar c l ≠ [] := by
  cases l with
  | nil => simp [splitOnChar]
  | cons x xs =>
    by_cases hx : x = c
    · simp [splitOnChar, hx]
    · cases h : splitOnChar c xs <;> simp [splitOnChar, hx, h]

theorem length_splitOnChar (c : Char) (l : List Char) :
    (splitOnChar c l).length = l.count c + 1 := by
  induction l with
  | nil => rfl
  | cons x xs ih =>
    by_cases hx : x = c
    · subst hx
      simp [splitOnChar, List.count_cons, ih]
    · cases h : splitOnChar c xs with
      | nil => exact absurd h (splitOnChar_ne_nil c xs)
      | cons r rs =>
        rw [h] at ih
        simp only [splitOnChar, if_neg hx, h, List.length_cons] at ih ⊢
        simp [List.count_cons, hx, ih]

theorem splitOnChar_of_not_mem (c : Char) (l : List Char) (h : c ∉ l) :
    splitOnChar c l = [l] := by
  induction l with
  | nil => rfl
  | cons x xs ih =>
    have hx : ¬x = c := fun hxc => h (hxc ▸ List.mem_cons_self x xs)
    have hxs : c ∉ xs := fun hm => h (List.mem_cons_of_mem x hm)
    simp [splitOnChar, hx, ih hxs]

theorem splitOnChar_append (c : Char) (u d : List Char) (hu : c ∉ u) :
    splitOnChar c (u ++ c :: d) = u :: splitOnChar c d := by
  induction u with
  | nil => simp [splitOnChar]
  | cons x xs ih =>
    have hx : ¬x = c := fun hxc => hu (hxc ▸ List.mem_cons_self x xs)
    have hxs : c ∉ xs := fun hm => hu (List.mem_cons_of_mem x hm)
    rw [List.cons_append]
    simp only [splitOnChar, if_neg hx, ih hxs]

/-- C6: the lightning-address conversion is a pure string transform: an
address `user@domain` with exactly one `@` maps to
`https://domain/.well-known/lnurlp/user`, and an address whose number of
`@` characters is not one maps to the empty string. -/
theorem lightningAddressToLNURL_spec :
    (∀ user domain : List Char, '@' ∉ user → '@' ∉ domain →
      lightningAddressToLNURL ⟨user ++ '@' :: domain⟩ =
        ⟨"https://".data ++ domain ++ "/.well-known/lnurlp/".data ++ user⟩) ∧
    (∀ address : String, address.data.count '@' ≠ 1 →
      lightningAddressToLNURL address = "") := by
  constructor
  · intro user domain hu hd
    have hsplit : splitOnChar '@' (user ++ '@' :: domain) = [user, domain] := by
      rw [splitOnChar_append '@' user domain hu, splitOnChar_of_not_mem '@' domain hd]
    simp [lightningAddressToLNURL, hsplit]
  · intro address hcount
    have hlen : (splitOnChar '@' address.data).length ≠ 2 := by
      rw [length_splitOnChar]
      omega
    unfold lightningAddressToLNURL
    cases h : splitOnChar '@' address.data with
    | nil => rfl
    | cons a t =>
      cases t with
      | nil => rfl
      | cons b t2 =>
        cases t2 with
        | nil => rw [h] at hlen; simp at hlen
        | cons e t3 => rfl

/-- Witness for `lightningAddressToLNURL_spec`: the spec's concrete address
`alice@example.com`, plus a zero-`@` and a two-`@` address. -/
theorem lightningAddressToLNURL_spec_witness :
    lightningAddressToLNURL "alice@example.com" =
      "https://example.com/.well-known/lnurlp/alice" ∧
    lightningAddressToLNURL "aliceexample.com" = "" ∧
    lightningAddressToLNURL "alice@exa@mple.com" = "" := by
  have h1 := lightningAddressToLNURL_spec.1 "alice".data "example.com".data
    (by decide) (by decide)
  have h2 := lightningAddressToLNURL_spec.2 "aliceexample.com" (by decide)
  have h3 := lightningAddressToLNURL_spec.2 "alice@exa@mple.com" (by decide)
  exact ⟨h1, h2, h3⟩

/-- `processEvent` either returns early, leaving everything untouched, or —
exactly when the event is kind 1, not yet zapped, and both budget gates
pass — runs the zap (and, if enabled, the reaction) attempts and commits
the ledger row on zap success. -/
theorem processEvent_char (cfg : BotConfig) (l : Ledger) (ev : NostrEvent)
    (now dayStart : Int) (zapO : Nat → ZapNoteOracle) (reactO : Nat → Bool) :
    processEvent cfg l ev now dayStart zapO reactO = ⟨l, [], 0, none, none, 0⟩ ∨
    (ev.kind = 1 ∧ isZapped l ev.id = false ∧
      getTodayTotal l dayStart + cfg.zapAmount ≤ cfg.dailyLimit ∧
      getTodayTotalForAuthor l ev.pubKey dayStart + cfg.zapAmount ≤ cfg.perNPubLimit ∧
      processEvent cfg l ev now dayStart zapO reactO =
        ⟨(if (tryZap zapO).success
            then (⟨ev.id, ev.pubKey, now, cfg.zapAmount, ev.createdAt⟩ : ZappedEvent) :: l
            else l),
          (tryZap zapO).actions, (tryZap zapO).calls, some (tryZap zapO).success,
          (if cfg.reactionEnabled then some (tryReact reactO).success else none),
          (if cfg.reactionEnabled then (tryReact reactO).calls else 0)⟩) := by
  unfold processEvent
  by_cases hk : ev.kind ≠ 1
  · left; simp [hk]
  · push_neg at hk
    by_cases hz : isZapped l ev.id
    · left; simp [hk, hz]
    · by_cases hdl : getTodayTotal l dayStart + cfg.zapAmount > cfg.dailyLimit
      · left; simp [hk, hz, hdl]
      · by_cases hal :
            getTodayTotalForAuthor l ev.pubKey dayStart + cfg.zapAmount > cfg.perNPubLimit
        · left; simp [hk, hz, hdl, hal]
        · right
          refine ⟨hk, by simpa using hz, not_lt.mp hdl, not_lt.mp hal, ?_⟩
          have hmz : markZapped l ev.id ev.pubKey cfg.zapAmount now ev.createdAt =
              .ok (⟨ev.id, ev.pubKey, now, cfg.zapAmount, ev.createdAt⟩ :: l) := by
            simp [markZapped, hz]
          cases hre : cfg.reactionEnabled <;>
            cases hs : (tryZap zapO).success <;>
              simp [hk, hz, hdl, hal, hre, hs, hmz]

theorem processEvent_ledger_of_zap_fail (cfg : BotConfig) (l : Ledger) (ev : NostrEvent)
    (now dayStart : Int) (zapO : Nat → ZapNoteOracle) (reactO : Nat → Bool)
    (h : (tryZap zapO).success = false) :
    (processEvent cfg l ev now dayStart zapO reactO).ledger = l := by
  rcases processEvent_char cfg l ev now dayStart zapO reactO with hc | ⟨_, _, _, _, hc⟩ <;>
    simp [hc, h]

/-- C1: an incoming post whose event id is already in the ledger is skipped
before any settlement work — no zap-request creation, no invoice
negotiation, no wallet RPC call, no reaction attempt, and the ledger is
untouched — and this holds across arbitrarily many re-deliveries of the
same post. -/
theorem processEvent_skips_zapped (cfg : BotConfig) (l : Ledger) (ev : NostrEvent)
    (now dayStart : Int) (zapO : Nat → ZapNoteOracle) (reactO : Nat → Bool)
    (h : isZapped l ev.id = true) :
    processEvent cfg l ev now dayStart zapO reactO = ⟨l, [], 0, none, none, 0⟩ ∧
    ∀ n : Nat,
      processMany cfg dayStart l (List.replicate n ⟨ev, now, zapO, reactO⟩) = ⟨l, 0, []⟩ := by
  have hone : processEvent cfg l ev now dayStart zapO reactO = ⟨l, [], 0, none, none, 0⟩ := by
    by_cases hk : ev.kind = 1
    · simp [processEvent, hk, h]
    · simp [processEvent, hk]
  refine ⟨hone, ?_⟩
  intro n
  induction n with
  | zero => rfl
  | succ n ih => simp [List.replicate_succ, processMany, hone, ih]

/-- Witness for `processEvent_skips_zapped`: a post whose id is already
recorded, re-delivered twice. -/
theorem processEvent_skips_zapped_witness :
    processEvent ⟨3, 10, 5, true⟩ [⟨"evt-1", "auth-1", 5, 3, 1⟩]
        ⟨"evt-1", "auth-1", 1, 1, "hello"⟩ 6 0
        (fun _ => ⟨.ok "a@b", .ok (), .ok "inv", .ok ()⟩) (fun _ => true) =
      ⟨[⟨"evt-1", "auth-1", 5, 3, 1⟩], [], 0, none, none, 0⟩ ∧
    processMany ⟨3, 10, 5, true⟩ 0 [⟨"evt-1", "auth-1", 5, 3, 1⟩]
        (List.replicate 2 ⟨⟨"evt-1", "auth-1", 1, 1, "hello"⟩, 6,
          fun _ => ⟨.ok "a@b", .ok (), .ok "inv", .ok ()⟩, fun _ => true⟩) =
      ⟨[⟨"evt-1", "auth-1", 5, 3, 1⟩], 0, []⟩ := by
  have h := processEvent_skips_zapped ⟨3, 10, 5, true⟩ [⟨"evt-1", "auth-1", 5, 3, 1⟩]
    ⟨"evt-1", "auth-1", 1, 1, "hello"⟩ 6 0
    (fun _ => ⟨.ok "a@b", .ok (), .ok "inv", .ok ()⟩) (fun _ => true) (by decide)
  exact ⟨h.1, h.2 2⟩

theorem zapNote_fails_of_payErr (o : ZapNoteOracle) (h : ∃ msg, o.payOk = .error msg) :
    (zapNote o).2 = false := by
  obtain ⟨msg, hm⟩ := h
  cases ha : o.lightningAddr <;> cases hs : o.signOk <;> cases hi : o.invoice <;>
    simp [zapNote, ha, hs, hi, hm]

theorem tryZap_fail (zapO : Nat → ZapNoteOracle)
    (h1 : (zapNote (zapO 1)).2 = false) (h2 : (zapNote (zapO 2)).2 = false) :
    (tryZap zapO).success = false := by
  simp [tryZap, h1, h2]

/-- C7: a failed settlement writes no ledger entry; the reaction outcome
never influences the ledger, the settlement outcome, or the pipeline steps;
and in a run where the wallet RPC errors on both attempts while the
reaction publish succeeds, the reaction is still reported successful and no
ledger entry exists for the post. -/
theorem processEvent_reaction_independent (cfg : BotConfig) (l : Ledger) (ev : NostrEvent)
    (now dayStart : Int) (zapO : Nat → ZapNoteOracle) (reactO reactO' : Nat → Bool) :
    ((tryZap zapO).success = false →
      (processEvent cfg l ev now dayStart zapO reactO).ledger = l) ∧
    ((processEvent cfg l ev now dayStart zapO reactO).ledger =
        (processEvent cfg l ev now dayStart zapO reactO').ledger ∧
      (processEvent cfg l ev now dayStart zapO reactO).zapReported =
        (processEvent cfg l ev now dayStart zapO reactO').zapReported ∧
      (processEvent cfg l ev now dayStart zapO reactO).zapActions =
        (processEvent cfg l ev now dayStart zapO reactO').zapActions) ∧
    (ev.kind = 1 → isZapped l ev.id = false →
      getTodayTotal l dayStart + cfg.zapAmount ≤ cfg.dailyLimit →
      getTodayTotalForAuthor l ev.pubKey dayStart + cfg.zapAmount ≤ cfg.perNPubLimit →
      cfg.reactionEnabled = true →
      (∀ i, ∃ msg, (zapO i).payOk = .error msg) →
      reactO 1 = true →
      (processEvent cfg l ev now dayStart zapO reactO).reactReported = some true ∧
      (processEvent cfg l ev now dayStart zapO reactO).ledger = l ∧
      isZapped (processEvent cfg l ev now dayStart zapO reactO).ledger ev.id = false) := by
  refine ⟨processEvent_ledger_of_zap_fail cfg l ev now dayStart zapO reactO, ?_, ?_⟩
  · unfold processEvent
    split_ifs <;> simp
  · intro hk hz hdl hal hre hpay hr1
    have hzf : (tryZap zapO).success = false :=
      tryZap_fail zapO (zapNote_fails_of_payErr _ (hpay 1)) (zapNote_fails_of_payErr _ (hpay 2))
    have hled := processEvent_ledger_of_zap_fail cfg l ev now dayStart zapO reactO hzf
    have hd' : ¬(getTodayTotal l dayStart + cfg.zapAmount > cfg.dailyLimit) := not_lt.mpr hdl
    have ha' : ¬(getTodayTotalForAuthor l ev.pubKey dayStart + cfg.zapAmount >
        cfg.perNPubLimit) := not_lt.mpr hal
    refine ⟨?_, hled, by rw [hled]; exact hz⟩
    simp [processEvent, hk, hz, hd', ha', hre, tryReact, hr1]

/-- Witness for `processEvent_reaction_independent`: wallet RPC rejects both
attempts, the reaction succeeds. -/
theorem processEvent_reaction_independent_witness :
    (processEvent ⟨3, 10, 5, true⟩ [] ⟨"evt-1", "auth-1", 1, 1, "hello"⟩ 6 0
        (fun _ => ⟨.ok "a@b", .ok (), .ok "inv", .error "wallet: PAYMENT_FAILED"⟩)
        (fun _ => true)).reactReported = some true ∧
    (processEvent ⟨3, 10, 5, true⟩ [] ⟨"evt-1", "auth-1", 1, 1, "hello"⟩ 6 0
        (fun _ => ⟨.ok "a@b", .ok (), .ok "inv", .error "wallet: PAYMENT_FAILED"⟩)
        (fun _ => true)).ledger = [] ∧
    isZapped (processEvent ⟨3, 10, 5, true⟩ [] ⟨"evt-1", "auth-1", 1, 1, "hello"⟩ 6 0
        (fun _ => ⟨.ok "a@b", .ok (), .ok "inv", .error "wallet: PAYMENT_FAILED"⟩)
        (fun _ => true)).ledger "evt-1" = false := by
  have h := (processEvent_reaction_independent ⟨3, 10, 5, true⟩ []
    ⟨"evt-1", "auth-1", 1, 1, "hello"⟩ 6 0
    (fun _ => ⟨.ok "a@b", .ok (), .ok "inv", .error "wallet: PAYMENT_FAILED"⟩)
    (fun _ => true) (fun _ => false)).2.2
    (by decide) (by decide) (by decide) (by decide) (by decide)
    (fun i => ⟨"wallet: PAYMENT_FAILED", rfl⟩) (by decide)
  exact h

/-- C8: for a post that passes the dedup and budget gates the settlement is
attempted at most twice — once, plus exactly one retry on a first failure —
and a second failure ends the post's processing with the zap reported
failed and no ledger entry written. -/
theorem tryZap_retry_policy (cfg : BotConfig) (l : Ledger) (ev : NostrEvent)
    (now dayStart : Int) (zapO : Nat → ZapNoteOracle) (reactO : Nat → Bool) :
    (tryZap zapO).calls ≤ 2 ∧
    ((zapNote (zapO 1)).2 = true → (tryZap zapO).calls = 1) ∧
    ((zapNote (zapO 1)).2 = false → (tryZap zapO).calls = 2) ∧
    ((zapNote (zapO 1)).2 = false → (zapNote (zapO 2)).2 = false →
      (tryZap zapO).success = false ∧
      (processEvent cfg l ev now dayStart zapO reactO).ledger = l) := by
  refine ⟨?_, fun h => by simp [tryZap, h], fun h => by simp [tryZap, h], ?_⟩
  · by_cases h : (zapNote (zapO 1)).2 <;> simp [tryZap, h]
  · intro h1 h2
    have hzf := tryZap_fail zapO h1 h2
    exact ⟨hzf, processEvent_ledger_of_zap_fail cfg l ev now dayStart zapO reactO hzf⟩

/-- Witness for `tryZap_retry_policy`: a first attempt failing at the wallet
RPC and a successful retry; and two failing attempts leaving the ledger
untouched. -/
theorem tryZap_retry_policy_witness :
    (tryZap (fun i => if i = 1
        then ⟨.ok "a@b", .ok (), .ok "inv", .error "wallet: PAYMENT_FAILED"⟩
        else ⟨.ok "a@b", .ok (), .ok "inv", .ok ()⟩)).calls = 2 ∧
    (tryZap (fun _ => ⟨.ok "a@b", .ok (), .ok "inv",
        .error "wallet: PAYMENT_FAILED"⟩)).success = false ∧
    (processEvent ⟨3, 10, 5, false⟩ [] ⟨"evt-1", "auth-1", 1, 1, "hello"⟩ 6 0
        (fun _ => ⟨.ok "a@b", .ok (), .ok "inv", .error "wallet: PAYMENT_FAILED"⟩)
        (fun _ => true)).ledger = [] := by
  have h1 := (tryZap_retry_policy ⟨3, 10, 5, false⟩ [] ⟨"evt-1", "auth-1", 1, 1, "hello"⟩ 6 0
    (fun i => if i = 1
      then ⟨.ok "a@b", .ok (), .ok "inv", .error "wallet: PAYMENT_FAILED"⟩
      else ⟨.ok "a@b", .ok (), .ok "inv", .ok ()⟩) (fun _ => true)).2.2.1 (by decide)
  have h2 := (tryZap_retry_policy ⟨3, 10, 5, false⟩ [] ⟨"evt-1", "auth-1", 1, 1, "hello"⟩ 6 0
    (fun _ => ⟨.ok "a@b", .ok (), .ok "inv", .error "wallet: PAYMENT_FAILED"⟩)
    (fun _ => true)).2.2.2 (by decide) (by decide)
  exact ⟨h1, h2.1, h2.2⟩

theorem getTodayTotal_cons (e : ZappedEvent) (l : Ledger) (dayStart : Int) :
    getTodayTotal (e :: l) dayStart =
      (if dayStart ≤ e.zappedAt then e.amount else 0) + getTodayTotal l dayStart := by
  by_cases h : dayStart ≤ e.zappedAt <;> simp [getTodayTotal, List.filter_cons, h]

theorem getTodayTotalForAuthor_cons (e : ZappedEvent) (l : Ledger) (a : String)
    (dayStart : Int) :
    getTodayTotalForAuthor (e :: l) a dayStart =
      (if e.authorPubkey = a ∧ dayStart ≤ e.zappedAt then e.amount else 0) +
        getTodayTotalForAuthor l a dayStart := by
  by_cases h1 : e.authorPubkey = a <;> by_cases h2 : dayStart ≤ e.zappedAt <;>
    simp [getTodayTotalForAuthor, List.filter_cons, h1, h2]

/-- One `processEvent` run within the current UTC day keeps both day totals
within their limits and grows the global day total by exactly the amount it
reported settled. -/
theorem processEvent_budget_step (cfg : BotConfig) (l : Ledger) (ev : NostrEvent)
    (now dayStart : Int) (zapO : Nat → ZapNoteOracle) (reactO : Nat → Bool)
    (hnow : dayStart ≤ now)
    (hd : getTodayTotal l dayStart ≤ cfg.dailyLimit)
    (ha : ∀ a, getTodayTotalForAuthor l a dayStart ≤ cfg.perNPubLimit) :
    getTodayTotal (processEvent cfg l ev now dayStart zapO reactO).ledger dayStart =
      getTodayTotal l dayStart +
        (if (processEvent cfg l ev now dayStart zapO reactO).zapReported = some true
          then cfg.zapAmount else 0) ∧
    getTodayTotal (processEvent cfg l ev now dayStart zapO reactO).ledger dayStart ≤
      cfg.dailyLimit ∧
    ∀ a, getTodayTotalForAuthor (processEvent cfg l ev now dayStart zapO reactO).ledger a
      dayStart ≤ cfg.perNPubLimit := by
  rcases processEvent_char cfg l ev now dayStart zapO reactO with
    hc | ⟨_, _, hdl, hal, hc⟩
  · rw [hc]
    exact ⟨by simp, hd, ha⟩
  · rw [hc]
    by_cases hs : (tryZap zapO).success
    · simp only [hs, if_true, if_pos]
      refine ⟨?_, ?_, ?_⟩
      · simp [getTodayTotal_cons, hnow]
        omega
      · simp [getTodayTotal_cons, hnow]
        omega
      · intro a
        rw [getTodayTotalForAuthor_cons]
        by_cases hap : a = ev.pubKey
        · subst hap
          simp [hnow]
          omega
        · rw [if_neg (by simp; intro h; exact absurd h.symm hap)]
          simpa using ha a
    · simp only [hs, if_false, Bool.false_eq_true]
      have hs' : (tryZap zapO).success = false := by simpa using hs
      simp [hs']
      exact ⟨hd, ha⟩

/-- Sequential processing within one UTC day: the day totals stay within
the limits and the global day total grows by exactly the settled sum. -/
theorem processMany_budget (cfg : BotConfig) (dayStart : Int) (ds : List Delivery) :
    ∀ l0 : Ledger, (∀ d ∈ ds, dayStart ≤ d.now) →
      getTodayTotal l0 dayStart ≤ cfg.dailyLimit →
      (∀ a, getTodayTotalForAuthor l0 a dayStart ≤ cfg.perNPubLimit) →
      getTodayTotal (processMany cfg dayStart l0 ds).ledger dayStart =
        getTodayTotal l0 dayStart + (processMany cfg dayStart l0 ds).settled ∧
      getTodayTotal (processMany cfg dayStart l0 ds).ledger dayStart ≤ cfg.dailyLimit ∧
      ∀ a, getTodayTotalForAuthor (processMany cfg dayStart l0 ds).ledger a dayStart ≤
        cfg.perNPubLimit := by
  induction ds with
  | nil =>
    intro l0 _ hd ha
    exact ⟨by simp [processMany], hd, ha⟩
  | cons d rest ih =>
    intro l0 hnow hd ha
    have hstep := processEvent_budget_step cfg l0 d.ev d.now dayStart d.zapO d.reactO
      (hnow d (List.mem_cons_self d rest)) hd ha
    have ihr := ih (processEvent cfg l0 d.ev d.now dayStart d.zapO d.reactO).ledger
      (fun d' hd' => hnow d' (List.mem_cons_of_mem d hd')) hstep.2.1 hstep.2.2
    refine ⟨?_, ihr.2.1, ihr.2.2⟩
    show getTodayTotal (processMany cfg dayStart
      (processEvent cfg l0 d.ev d.now dayStart d.zapO d.reactO).ledger rest).ledger dayStart = _
    rw [ihr.1, hstep.1]
    show _ = getTodayTotal l0 dayStart +
      ((if (processEvent cfg l0 d.ev d.now dayStart d.zapO d.reactO).zapReported = some true
        then cfg.zapAmount else 0) +
       (processMany cfg dayStart
         (processEvent cfg l0 d.ev d.now dayStart d.zapO d.reactO).ledger rest).settled)
    omega

/-- C2: a settlement is attempted only when both `todayTotal + zapAmount ≤
dailyLimit` and `authorTotal + zapAmount ≤ perAuthorLimit` (totals over
ledger entries with `settledAt` at or after the start of the current UTC
day); consequently sequential processing within one UTC day keeps the
global day total within `dailyLimit` and every author's day total within
`perAuthorLimit`, and — starting from a day with nothing settled yet — the
sum of settled amounts never exceeds `dailyLimit`. -/
theorem processEvent_budget (cfg : BotConfig) (dayStart : Int) (l0 : Ledger)
    (ds : List Delivery) (l : Ledger) (ev : NostrEvent) (now : Int)
    (zapO : Nat → ZapNoteOracle) (reactO : Nat → Bool) :
    ((processEvent cfg l ev now dayStart zapO reactO).zapCalls ≠ 0 →
      getTodayTotal l dayStart + cfg.zapAmount ≤ cfg.dailyLimit ∧
      getTodayTotalForAuthor l ev.pubKey dayStart + cfg.zapAmount ≤ cfg.perNPubLimit) ∧
    ((∀ d ∈ ds, dayStart ≤ d.now) →
      getTodayTotal l0 dayStart ≤ cfg.dailyLimit →
      (∀ a, getTodayTotalForAuthor l0 a dayStart ≤ cfg.perNPubLimit) →
      getTodayTotal (processMany cfg dayStart l0 ds).ledger dayStart ≤ cfg.dailyLimit ∧
      (∀ a, getTodayTotalForAuthor (processMany cfg dayStart l0 ds).ledger a dayStart ≤
        cfg.perNPubLimit) ∧
      (getTodayTotal l0 dayStart = 0 →
        (processMany cfg dayStart l0 ds).settled ≤ cfg.dailyLimit)) := by
  constructor
  · intro hcalls
    rcases processEvent_char cfg l ev now dayStart zapO reactO with hc | ⟨_, _, hdl, hal, _⟩
    · rw [hc] at hcalls
      exact absurd rfl hcalls
    · exact ⟨hdl, hal⟩
  · intro hnow hd ha
    have h := processMany_budget cfg dayStart ds l0 hnow hd ha
    refine ⟨h.2.1, h.2.2, fun h0 => ?_⟩
    have := h.1
    omega

/-- Witness for `processEvent_budget`: amount 3, daily limit 10, per-author
limit 5, empty ledger, two deliveries of distinct posts by one author. -/
theorem processEvent_budget_witness :
    (getTodayTotal [] 0 + (3 : Int) ≤ 10 ∧
      getTodayTotalForAuthor [] "auth-1" 0 + (3 : Int) ≤ 5) ∧
    (getTodayTotal (processMany ⟨3, 10, 5, false⟩ 0 []
        [⟨⟨"evt-1", "auth-1", 1, 1, "hi"⟩, 6,
            fun _ => ⟨.ok "a@b", .ok (), .ok "inv", .ok ()⟩, fun _ => true⟩,
          ⟨⟨"evt-2", "auth-1", 1, 2, "ho"⟩, 7,
            fun _ => ⟨.ok "a@b", .ok (), .ok "inv", .ok ()⟩, fun _ => true⟩]).ledger 0 ≤ 10 ∧
      (processMany ⟨3, 10, 5, false⟩ 0 []
        [⟨⟨"evt-1", "auth-1", 1, 1, "hi"⟩, 6,
            fun _ => ⟨.ok "a@b", .ok (), .ok "inv", .ok ()⟩, fun _ => true⟩,
          ⟨⟨"evt-2", "auth-1", 1, 2, "ho"⟩, 7,
            fun _ => ⟨.ok "a@b", .ok (), .ok "inv", .ok ()⟩, fun _ => true⟩]).settled ≤ 10) := by
  have h := processEvent_budget ⟨3, 10, 5, false⟩ 0 []
    [⟨⟨"evt-1", "auth-1", 1, 1, "hi"⟩, 6,
        fun _ => ⟨.ok "a@b", .ok (), .ok "inv", .ok ()⟩, fun _ => true⟩,
      ⟨⟨"evt-2", "auth-1", 1, 2, "ho"⟩, 7,
        fun _ => ⟨.ok "a@b", .ok (), .ok "inv", .ok ()⟩, fun _ => true⟩]
    [] ⟨"evt-1", "auth-1", 1, 1, "hi"⟩ 6
    (fun _ => ⟨.ok "a@b", .ok (), .ok "inv", .ok ()⟩) (fun _ => true)
  have hA := h.1 (by decide)
  have hB := h.2 (by intro d hd; fin_cases hd <;> decide)
    (by decide) (fun a => by simp [getTodayTotalForAuthor])
  exact ⟨hA, hB.1, hB.2.2 (by decide)⟩

theorem countPublish_publish_cons (x : Option PubErr) (tr : List SAction) :
    countPublish (.publish x :: tr) = countPublish tr + 1 := by
  simp [countPublish, List.countP_cons]

theorem countPublish_reconnect_cons (b : Bool) (tr : List SAction) :
    countPublish (.reconnect b :: tr) = countPublish tr := by
  simp [countPublish, List.countP_cons]

theorem retryShape_publish_reconnect (e : PubErr) (b : Bool) (tr : List SAction) :
    retryShape (.publish (some e) :: .reconnect b :: tr) =
      (e.connClosed && retryShape tr) := rfl

theorem publishLoop_bounds (pub : Nat → Option PubErr) (rc : Nat → Bool) :
    ∀ (fuel : Nat) (relayUp : Bool) (pi ri : Nat) (le : Option PubErr),
      countPublish (publishLoop pub rc fuel relayUp pi ri le).1 ≤ fuel ∧
      retryShape (publishLoop pub rc fuel relayUp pi ri le).1 = true := by
  intro fuel
  induction fuel with
  | zero =>
    intro relayUp pi ri le
    exact ⟨by simp [publishLoop, countPublish], by simp [publishLoop, retryShape]⟩
  | succ n ih =>
    intro relayUp pi ri le
    cases relayUp
    · simp [publishLoop, countPublish, retryShape]
    · cases hp : pub pi with
      | none => simp [publishLoop, hp, countPublish, retryShape, List.countP_cons]
      | some e =>
        cases hcc : e.connClosed
        · simp [publishLoop, hp, hcc, countPublish, retryShape, List.countP_cons]
        · have hrec := ih (rc ri) (pi + 1) (ri + 1) (some e)
          simp only [publishLoop, hp, hcc, if_true]
          constructor
          · rw [countPublish_publish_cons, countPublish_reconnect_cons]
            have := hrec.1
            omega
          · rw [retryShape_publish_reconnect, hcc]
            simpa using hrec.2

/-- C9: the encrypted-request publish is retried only on a
`connection closed` transport error, within at most 3 loop iterations
(hence at most 3 `Publish` calls), with a fresh `RelayConnect` attempt
before each retry; a publish failure that is not `connection closed`
aborts immediately — one publish, no reconnect — and the request fails
with that publish error. -/
theorem sendRequest_publish_retry (pub : Nat → Option PubErr) (rc : Nat → Bool)
    (e : PubErr) :
    (pub 0 = some e → e.connClosed = false →
      sendRequestPublish pub rc = ([.publish (some e)], .err e)) ∧
    countPublish (sendRequestPublish pub rc).1 ≤ 3 ∧
    retryShape (sendRequestPublish pub rc).1 = true := by
  refine ⟨?_, (publishLoop_bounds pub rc 3 true 0 0 none).1,
    (publishLoop_bounds pub rc 3 true 0 0 none).2⟩
  intro hp hcc
  simp [sendRequestPublish, publishLoop, hp, hcc]

/-- Witness for `sendRequest_publish_retry`: a first publish failing with a
non-`connection closed` error. -/
theorem sendRequest_publish_retry_witness :
    sendRequestPublish (fun _ => some ⟨false⟩) (fun _ => true) =
      ([.publish (some ⟨false⟩)], .err ⟨false⟩) ∧
    countPublish (sendRequestPublish (fun _ => some ⟨false⟩) (fun _ => true)).1 ≤ 3 := by
  have h := sendRequest_publish_retry (fun _ => some ⟨false⟩) (fun _ => true) ⟨false⟩
  exact ⟨h.1 rfl rfl, h.2.1⟩

/-- A publish environment in which every `Publish` on a live relay fails
with a `connection closed` error. -/
def pubConnClosed : Nat → Option PubErr := fun _ => some ⟨true⟩

/-- A reconnect environment in which every `nostr.RelayConnect` fails (so
the discarded-error assignment `c.relay, _ = nostr.RelayConnect(...)`
leaves the relay handle nil). -/
def reconnectFails : Nat → Bool := fun _ => false

/-- C10: when a publish fails with `connection closed` and the subsequent
`RelayConnect` fails, its error is discarded and the relay handle becomes
nil, so the next loop iteration calls `Publish` on the nil handle: this
execution of `sendRequest` ends in a nil dereference, not in an error
return. -/
theorem sendRequest_nil_relay_deref :
    sendRequestPublish pubConnClosed reconnectFails =
      ([.publish (some ⟨true⟩), .reconnect false], .nilDeref) := rfl

end Pekka
